import Mathlib

/-!
Verification development for the `stitch` lagged contextual linkage engine.

The Python source (`src/stitch/daily_measure.py`, `src/stitch/process.py`) is
shallowly embedded below: pandas tables become lists of rows or named columns,
string operations become executable functions on `String`, fallible
construction steps become `Except`-valued functions, and the lazy per-year
cache of `DailyMeasureDataDir` becomes explicit state passing.
-/

/-! ## Python string primitives -/

/-- Character-list core of Python `str.zfill(w)`: if the list already has at
least `w` characters it is returned unchanged, otherwise it is left-padded
with zeros to width `w`, with the padding inserted after a leading sign
character if present. -/
def zfillChars (cs : List Char) (w : Nat) : List Char :=
  if w ≤ cs.length then cs
  else
    match cs with
    | [] => List.replicate w '0'
    | c :: rest =>
      if c = '+' ∨ c = '-' then c :: (List.replicate (w - (rest.length + 1)) '0' ++ rest)
      else List.replicate (w - (rest.length + 1)) '0' ++ (c :: rest)

/-- Python `str.zfill(w)` (used as `.str.zfill(11)` in `daily_measure.py` and
as `.zfill(11)` in `process.py`). -/
def strZfill (s : String) (w : Nat) : String :=
  ⟨zfillChars s.data w⟩

/-- The GEOID normalization applied in `DailyMeasureData.__init__`
(`.astype(str).str.zfill(11)`, daily_measure.py line 184 and the chunked /
wide-format paths): zero-pad to 11 characters. -/
def padGeoid (s : String) : String :=
  strZfill s 11

theorem zfillChars_of_length_ge (cs : List Char) (w : Nat) (h : w ≤ cs.length) :
    zfillChars cs w = cs := by
  unfold zfillChars
  rw [if_pos h]

theorem strZfill_of_length_ge (s : String) (w : Nat) (h : w ≤ s.data.length) :
    strZfill s w = s := by
  unfold strZfill
  rw [zfillChars_of_length_ge s.data w h]

theorem zfillChars_length (cs : List Char) (w : Nat) :
    w ≤ (zfillChars cs w).length := by
  by_cases h : w ≤ cs.length
  · rw [zfillChars_of_length_ge cs w h]; exact h
  · cases cs with
    | nil =>
      simp only [zfillChars]
      rw [if_neg h]
      simp only [List.length_replicate, le_refl]
    | cons c rest =>
      simp only [List.length_cons] at h
      simp only [zfillChars, List.length_cons]
      rw [if_neg (by omega)]
      by_cases hc : c = '+' ∨ c = '-'
      · rw [if_pos hc]
        simp only [List.length_cons, List.length_append, List.length_replicate]
        omega
      · rw [if_neg hc]
        simp only [List.length_append, List.length_replicate, List.length_cons]
        omega

theorem strZfill_length (s : String) (w : Nat) :
    w ≤ (strZfill s w).data.length :=
  zfillChars_length s.data w

theorem zfillChars_no_sign (c : Char) (rest : List Char) (w : Nat)
    (hlt : rest.length + 1 < w) (hc : ¬ (c = '+' ∨ c = '-')) :
    zfillChars (c :: rest) w = List.replicate (w - (rest.length + 1)) '0' ++ (c :: rest) := by
  simp only [zfillChars, List.length_cons]
  rw [if_neg (by omega), if_neg hc]

theorem zfillChars_all_digits (cs : List Char) (w : Nat)
    (h : ∀ c ∈ cs, c.isDigit) :
    ∀ c ∈ zfillChars cs w, c.isDigit := by
  by_cases hle : w ≤ cs.length
  · rw [zfillChars_of_length_ge cs w hle]; exact h
  · cases cs with
    | nil =>
      simp only [zfillChars]
      rw [if_neg hle]
      intro c hc
      simp only [List.mem_replicate] at hc
      rw [hc.2]; decide
    | cons c0 rest =>
      have hd : c0.isDigit := h c0 (List.mem_cons_self c0 rest)
      have hc0 : ¬ (c0 = '+' ∨ c0 = '-') := by
        rintro (rfl | rfl) <;> simp at hd
      simp only [List.length_cons] at hle
      rw [zfillChars_no_sign c0 rest w (by omega) hc0]
      intro c hc
      simp only [List.mem_append, List.mem_replicate, List.mem_cons] at hc
      rcases hc with ⟨_, rfl⟩ | hc
      · decide
      · exact h c (List.mem_cons.mpr hc)

/-! ## C2: idempotence and width of GEOID zero-padding -/

/-- C2 counterexample: the claim says a 5-character numeric GEOID pads to
`"00000"` (five zeros) prepended to the original, but `zfill(11)` on a
5-character string prepends six zeros; `"00000" ++ "12345"` has only 10
characters. -/
theorem C2_counterexample :
    padGeoid "12345" = "00000012345" ∧ padGeoid "12345" ≠ "00000" ++ "12345" := by
  constructor
  · rfl
  · decide

/-- C2, amended: GEOID zero-padding is idempotent on 11-character strings
(an already-11-character GEOID string is returned unchanged), and a
5-character all-digit GEOID string pads to `"000000"` (six zeros) prepended
to the original, an 11-character result. -/
theorem C2_padGeoid_idempotent_and_pad5 :
    (∀ s : String, s.length = 11 → padGeoid s = s) ∧
    (∀ s : String, s.length = 5 → (∀ c ∈ s.data, c.isDigit) →
      padGeoid s = "000000" ++ s ∧ (padGeoid s).length = 11) := by
  constructor
  · intro s h
    have hlen : s.data.length = 11 := h
    exact strZfill_of_length_ge s 11 (le_of_eq hlen.symm)
  · intro s h hdig
    obtain ⟨l⟩ := s
    have hlen : l.length = 5 := h
    simp only [String.data] at hdig
    match l, hlen with
    | c0 :: rest, hlen =>
      have hd : c0.isDigit := hdig c0 (List.mem_cons_self c0 rest)
      have hc0 : ¬ (c0 = '+' ∨ c0 = '-') := by
        rintro (rfl | rfl) <;> simp at hd
      have hr : rest.length = 4 := by simpa using hlen
      have hz : zfillChars (c0 :: rest) 11
          = List.replicate 6 '0' ++ (c0 :: rest) := by
        rw [zfillChars_no_sign c0 rest 11 (by omega) hc0, hr]
      constructor
      · show String.mk (zfillChars (c0 :: rest) 11) = String.append _ _
        rw [hz]
        rfl
      · show (String.mk (zfillChars (c0 :: rest) 11)).data.length = 11
        rw [hz]
        simp only [List.length_append, List.length_replicate, List.length_cons]
        omega

/-- Witness for C2: concrete instances of both conjuncts. -/
theorem C2_witness :
    padGeoid "06037206300" = "06037206300" ∧ padGeoid "12345" = "000000" ++ "12345" := by
  refine ⟨C2_padGeoid_idempotent_and_pad5.1 "06037206300" (by decide), ?_⟩
  exact (C2_padGeoid_idempotent_and_pad5.2 "12345" (by decide) (by decide)).1

/-! ## `convert_geoid_columns_to_string` (process.py lines 11-41)

A pandas cell is modeled by `PdValue`; `pdValueStr` is pandas
`.astype(str)`, under which the three missing markers stringify to
`"nan"`, `"None"` and `"<NA>"`. The source chain is
`.astype(str).str.replace(r"\D", "", regex=True)
 .replace(dict).apply(lambda x: x.zfill(11) if x else "")`,
in that order: the non-digit strip runs before the dict replacement. -/

inductive PdValue where
  | NaN
  | NoneV
  | NAv
  | str (s : String)
  | intV (n : Int)
deriving DecidableEq, Repr

/-- pandas `.astype(str)` on one cell. -/
def pdValueStr : PdValue → String
  | .NaN => "nan"
  | .NoneV => "None"
  | .NAv => "<NA>"
  | .str s => s
  | .intV n => toString n

/-- The three pandas missing markers (NaN, None, pd.NA). -/
def isMissing : PdValue → Prop
  | .NaN => True
  | .NoneV => True
  | .NAv => True
  | _ => False

instance (v : PdValue) : Decidable (isMissing v) := by
  cases v <;> simp only [isMissing] <;> infer_instance

/-- `.str.replace(r"\D", "", regex=True)`: keep only digit characters. -/
def stripNonDigits (s : String) : String :=
  ⟨s.data.filter (fun c => c.isDigit)⟩

/-- `.replace(\x7b"nan": "", "None": "", "<NA>": ""\x7d)`: exact-match value
replacement (a no-op after the digit strip, kept for faithfulness). -/
def replaceMissingTokens (s : String) : String :=
  if s = "nan" ∨ s = "None" ∨ s = "<NA>" then "" else s

/-- The whole per-cell transform of `convert_geoid_columns_to_string`,
including the final `.apply(lambda x: x.zfill(11) if x else "")`. -/
def geoidCellToString (v : PdValue) : String :=
  let s := replaceMissingTokens (stripNonDigits (pdValueStr v))
  if s = "" then "" else strZfill s 11

def geoidCell (v : PdValue) : PdValue :=
  PdValue.str (geoidCellToString v)

/-- A pandas DataFrame as an ordered list of named columns. -/
structure GeoDF where
  cols : List (String × List PdValue)
deriving DecidableEq, Repr

def dfGetCol (df : GeoDF) (name : String) : Option (List PdValue) :=
  (df.cols.find? (fun c => c.1 = name)).map Prod.snd

def dfSetCol (df : GeoDF) (name : String) (f : List PdValue → List PdValue) : GeoDF :=
  ⟨df.cols.map (fun c => if c.1 = name then (c.1, f c.2) else c)⟩

def dfHasCol (df : GeoDF) (name : String) : Bool :=
  df.cols.any (fun c => c.1 = name)

/-- `convert_geoid_columns_to_string(df, geoid_cols)` (process.py 11-41):
for each listed column present in the DataFrame, replace it by the per-cell
transform; other columns are untouched. -/
def convert_geoid_columns_to_string (df : GeoDF) (geoid_cols : List String) : GeoDF :=
  geoid_cols.foldl
    (fun acc col =>
      if dfHasCol acc col then dfSetCol acc col (fun cells => cells.map geoidCell)
      else acc)
    df

theorem stripNonDigits_all_digits (s : String) :
    ∀ c ∈ (stripNonDigits s).data, c.isDigit := by
  intro c hc
  simp only [stripNonDigits, List.mem_filter] at hc
  exact hc.2

theorem replaceMissingTokens_of_all_digits (s : String)
    (h : ∀ c ∈ s.data, c.isDigit) : replaceMissingTokens s = s := by
  unfold replaceMissingTokens
  rw [if_neg]
  rintro (rfl | rfl | rfl)
  · have := h 'n' (by decide)
    simp at this
  · have := h 'N' (by decide)
    simp at this
  · have := h '<' (by decide)
    simp at this

theorem geoidCellToString_nonempty (v : PdValue)
    (h : stripNonDigits (pdValueStr v) ≠ "") :
    geoidCellToString v = strZfill (stripNonDigits (pdValueStr v)) 11 := by
  unfold geoidCellToString
  rw [replaceMissingTokens_of_all_digits _ (stripNonDigits_all_digits _), if_neg h]

theorem geoidCellToString_empty (v : PdValue)
    (h : stripNonDigits (pdValueStr v) = "") :
    geoidCellToString v = "" := by
  unfold geoidCellToString
  rw [replaceMissingTokens_of_all_digits _ (stripNonDigits_all_digits _), if_pos h]

theorem geoidCellToString_all_digits (v : PdValue) :
    ∀ c ∈ (geoidCellToString v).data, c.isDigit := by
  by_cases h : stripNonDigits (pdValueStr v) = ""
  · rw [geoidCellToString_empty v h]
    intro c hc
    simp at hc
  · rw [geoidCellToString_nonempty v h]
    exact zfillChars_all_digits _ 11 (stripNonDigits_all_digits _)

theorem stripNonDigits_of_all_digits (s : String)
    (h : ∀ c ∈ s.data, c.isDigit) : stripNonDigits s = s := by
  obtain ⟨l⟩ := s
  simp only [stripNonDigits]
  congr 1
  exact List.filter_eq_self.mpr (by simpa using h)

theorem geoidCell_idem (v : PdValue) :
    geoidCellToString (PdValue.str (geoidCellToString v)) = geoidCellToString v := by
  by_cases h : stripNonDigits (pdValueStr v) = ""
  · rw [geoidCellToString_empty v h]
    decide
  · rw [geoidCellToString_nonempty v h]
    set t := strZfill (stripNonDigits (pdValueStr v)) 11 with ht
    have hdig : ∀ c ∈ t.data, c.isDigit :=
      zfillChars_all_digits _ 11 (stripNonDigits_all_digits _)
    have hstrip : stripNonDigits t = t := stripNonDigits_of_all_digits _ hdig
    have htlen : 11 ≤ t.data.length := strZfill_length _ 11
    have hne : stripNonDigits (pdValueStr (PdValue.str t)) ≠ "" := by
      show stripNonDigits t ≠ ""
      rw [hstrip]
      intro hcon
      rw [hcon] at htlen
      simp at htlen
    rw [geoidCellToString_nonempty (PdValue.str t) hne]
    show strZfill (stripNonDigits t) 11 = t
    rw [hstrip]
    exact strZfill_of_length_ge t 11 htlen

theorem mapGeoidCell_idem (cells : List PdValue) :
    (cells.map geoidCell).map geoidCell = cells.map geoidCell := by
  induction cells with
  | nil => rfl
  | cons v rest ih =>
    simp only [List.map_cons, List.cons.injEq]
    refine ⟨?_, ih⟩
    show PdValue.str (geoidCellToString (PdValue.str (geoidCellToString v))) = _
    rw [geoidCell_idem v]
    rfl

theorem setColEntry_fst (name : String) (f : List PdValue → List PdValue)
    (c : String × List PdValue) :
    (if c.1 = name then (c.1, f c.2) else c).1 = c.1 := by
  split <;> rfl

theorem find?_map_setcol (cols : List (String × List PdValue)) (name q : String)
    (f : List PdValue → List PdValue) :
    ((cols.map (fun c => if c.1 = name then (c.1, f c.2) else c)).find?
        (fun c => c.1 = q))
      = (cols.find? (fun c => c.1 = q)).map
          (fun c => if c.1 = name then (c.1, f c.2) else c) := by
  induction cols with
  | nil => rfl
  | cons c cs ih =>
    have hfst : (if c.1 = name then (c.1, f c.2) else c).1 = c.1 :=
      setColEntry_fst name f c
    simp only [List.map_cons, List.find?_cons, hfst]
    by_cases hq : c.1 = q
    · have hd : decide (c.1 = q) = true := decide_eq_true hq
      simp only [hd]
      rfl
    · have hd : decide (c.1 = q) = false := decide_eq_false hq
      simp only [hd]
      exact ih

theorem dfGetCol_dfSetCol_same (df : GeoDF) (name : String)
    (f : List PdValue → List PdValue) :
    dfGetCol (dfSetCol df name f) name = (dfGetCol df name).map f := by
  unfold dfGetCol dfSetCol
  rw [find?_map_setcol]
  cases hf : df.cols.find? (fun c => decide (c.1 = name)) with
  | none => rfl
  | some c =>
    have hc : c.1 = name := by
      have := List.find?_some hf
      simpa using this
    simp only [Option.map_some']
    rw [if_pos hc]

theorem dfGetCol_dfSetCol_other (df : GeoDF) (name q : String)
    (f : List PdValue → List PdValue) (h : q ≠ name) :
    dfGetCol (dfSetCol df name f) q = dfGetCol df q := by
  unfold dfGetCol dfSetCol
  rw [find?_map_setcol]
  cases hf : df.cols.find? (fun c => decide (c.1 = q)) with
  | none => rfl
  | some c =>
    have hc : c.1 = q := by
      have := List.find?_some hf
      simpa using this
    simp only [Option.map_some']
    rw [if_neg (by rw [hc]; exact h)]

theorem dfHasCol_false_getCol (df : GeoDF) (name : String)
    (h : dfHasCol df name = false) : dfGetCol df name = none := by
  unfold dfHasCol at h
  unfold dfGetCol
  cases hf : df.cols.find? (fun c => decide (c.1 = name)) with
  | none => rfl
  | some c =>
    exfalso
    have hmem := List.mem_of_find?_eq_some hf
    have hc : c.1 = name := by
      have := List.find?_some hf
      simpa using this
    have : df.cols.any (fun c => c.1 = name) = true :=
      List.any_eq_true.mpr ⟨c, hmem, decide_eq_true hc⟩
    rw [h] at this
    exact Bool.false_ne_true this

/-- Observable behaviour of `convert_geoid_columns_to_string` on each column:
a column named in the list is mapped cell-wise through the transform (also
when the name is listed more than once, since the transform is idempotent);
any other column is untouched. -/
theorem convert_getCol (gcols : List String) (df : GeoDF) (name : String) :
    dfGetCol (convert_geoid_columns_to_string df gcols) name =
      if name ∈ gcols then (dfGetCol df name).map (fun cells => cells.map geoidCell)
      else dfGetCol df name := by
  induction gcols generalizing df with
  | nil =>
    simp [convert_geoid_columns_to_string]
  | cons g rest ih =>
    show dfGetCol (convert_geoid_columns_to_string
        (if dfHasCol df g then dfSetCol df g (fun cells => cells.map geoidCell) else df)
        rest) name = _
    rw [ih]
    by_cases hg : g = name
    · subst hg
      rw [if_pos (List.mem_cons_self g rest)]
      by_cases hhas : dfHasCol df g
      · rw [if_pos hhas]
        by_cases hmem : g ∈ rest
        · rw [if_pos hmem, dfGetCol_dfSetCol_same]
          cases dfGetCol df g with
          | none => rfl
          | some cells =>
            simp only [Option.map_some', Option.some.injEq]
            exact mapGeoidCell_idem cells
        · rw [if_neg hmem, dfGetCol_dfSetCol_same]
      · have hfalse : dfHasCol df g = false := by
          cases hb : dfHasCol df g
          · rfl
          · exact absurd hb hhas
        have hnone := dfHasCol_false_getCol df g hfalse
        rw [if_neg hhas]
        by_cases hmem : g ∈ rest
        · rw [if_pos hmem, hnone]
        · rw [if_neg hmem, hnone]
          rfl
    · have hiff : (name ∈ g :: rest) ↔ (name ∈ rest) := by
        constructor
        · intro h
          rcases List.mem_cons.mp h with h1 | h2
          · exact absurd h1.symm hg
          · exact h2
        · exact List.mem_cons_of_mem g
      have hunch : dfGetCol
          (if dfHasCol df g then dfSetCol df g (fun cells => cells.map geoidCell) else df)
          name = dfGetCol df name := by
        by_cases hhas : dfHasCol df g
        · rw [if_pos hhas, dfGetCol_dfSetCol_other df g name _ (fun h => hg h.symm)]
        · rw [if_neg hhas]
      by_cases hmem : name ∈ rest
      · rw [if_pos hmem, if_pos (hiff.mpr hmem), hunch]
      · rw [if_neg hmem, if_neg (fun h => hmem (hiff.mp h)), hunch]

/-- C9 counterexample: the claim says every non-missing value becomes its
digit characters left-padded with zeros to at least 11 characters, but a
non-missing value with no digit characters at all (here `"abc"`) becomes the
empty string, not a zero-padded 11-character string. -/
theorem C9_counterexample :
    dfGetCol (convert_geoid_columns_to_string
        ⟨[("g", [PdValue.str "abc"])]⟩ ["g"]) "g"
      = some [PdValue.str ""] ∧ ¬ (11 ≤ (String.length "")) := by
  constructor
  · rfl
  · decide

/-- C9, amended: `convert_geoid_columns_to_string` leaves columns not in the
list unchanged (and listed names absent from the DataFrame have no effect),
and maps each listed present column cell-wise so that every missing value
(NaN/None/NA) becomes the empty string, every value whose string form
contains no digit character also becomes the empty string, and every value
with at least one digit character becomes the string of its digit characters
only, left-padded with zeros to at least 11 characters; consequently every
non-empty resulting entry is all digits. -/
theorem C9_convert_geoid_semantics (df : GeoDF) (gcols : List String) :
    (∀ name, name ∉ gcols →
       dfGetCol (convert_geoid_columns_to_string df gcols) name = dfGetCol df name) ∧
    (∀ name, name ∈ gcols → dfGetCol df name = none →
       dfGetCol (convert_geoid_columns_to_string df gcols) name = none) ∧
    (∀ name cells, name ∈ gcols → dfGetCol df name = some cells →
       dfGetCol (convert_geoid_columns_to_string df gcols) name
         = some (cells.map (fun v => PdValue.str (geoidCellToString v)))) ∧
    (∀ v, isMissing v → geoidCellToString v = "") ∧
    (∀ v, stripNonDigits (pdValueStr v) = "" → geoidCellToString v = "") ∧
    (∀ v, stripNonDigits (pdValueStr v) ≠ "" →
       geoidCellToString v = strZfill (stripNonDigits (pdValueStr v)) 11 ∧
       11 ≤ (geoidCellToString v).length) ∧
    (∀ v, geoidCellToString v ≠ "" → ∀ c ∈ (geoidCellToString v).data, c.isDigit) := by
  refine ⟨?_, ?_, ?_, ?_, ?_, ?_, ?_⟩
  · intro name hname
    rw [convert_getCol, if_neg hname]
  · intro name hname hnone
    rw [convert_getCol, if_pos hname, hnone]
    rfl
  · intro name cells hname hsome
    rw [convert_getCol, if_pos hname, hsome]
    rfl
  · intro v hv
    cases v with
    | NaN => decide
    | NoneV => decide
    | NAv => decide
    | str s => exact absurd hv (by simp [isMissing])
    | intV n => exact absurd hv (by simp [isMissing])
  · exact geoidCellToString_empty
  · intro v hv
    exact ⟨geoidCellToString_nonempty v hv, by
      rw [geoidCellToString_nonempty v hv]
      exact strZfill_length _ 11⟩
  · intro v _
    exact geoidCellToString_all_digits v

/-- Witness for C9: a concrete DataFrame with a missing cell, a numeric cell
and an untouched column. -/
theorem C9_witness :
    dfGetCol (convert_geoid_columns_to_string
        ⟨[("g", [PdValue.NaN, PdValue.str "12345"]), ("keep", [PdValue.intV 7])]⟩
        ["g", "zz"]) "keep" = some [PdValue.intV 7] ∧
    dfGetCol (convert_geoid_columns_to_string
        ⟨[("g", [PdValue.NaN, PdValue.str "12345"]), ("keep", [PdValue.intV 7])]⟩
        ["g", "zz"]) "g" = some [PdValue.str "", PdValue.str "00000012345"] := by
  constructor
  · exact (C9_convert_geoid_semantics
      ⟨[("g", [PdValue.NaN, PdValue.str "12345"]), ("keep", [PdValue.intV 7])]⟩
      ["g", "zz"]).1 "keep" (by decide)
  · have h := (C9_convert_geoid_semantics
      ⟨[("g", [PdValue.NaN, PdValue.str "12345"]), ("keep", [PdValue.intV 7])]⟩
      ["g", "zz"]).2.2.1 "g" [PdValue.NaN, PdValue.str "12345"] (by decide) (by rfl)
    rw [h]
    rfl

/-! ## `DailyMeasureData` loading and the (date, geoid) uniqueness check
(daily_measure.py lines 181-189, 236-266, 352-390)

A row of a loaded contextual table is `CtxRow`; the long-format load path is
`loadRows` (zero-pad the GEOID, then drop rows outside the optional
allow-set), and the post-load invariant check
`_check_unique_date_geoid_pairs` is `checkUniqueDateGeoidPairs`, returning
the `ValueError` payload (the spec's `DuplicateKeyError`) as a structure. -/

structure CtxRow where
  date : Nat
  geoid : String
  value : Int
deriving DecidableEq, Repr

def rowKey (r : CtxRow) : Nat × String :=
  (r.date, r.geoid)

def keyCount (rows : List CtxRow) (k : Nat × String) : Nat :=
  (rows.filter (fun r => rowKey r = k)).length

/-- pandas `df.duplicated(subset=[date_col, geoid_col], keep=False)` applied
as a row filter: all rows whose (date, geoid) key occurs at least twice. -/
def duplicatedKeepFalse (rows : List CtxRow) : List CtxRow :=
  rows.filter (fun r => 2 ≤ keyCount rows (rowKey r))

def dedupKeepFirstAux (seen : List (Nat × String)) :
    List (Nat × String) → List (Nat × String)
  | [] => []
  | k :: ks =>
    if k ∈ seen then dedupKeepFirstAux seen ks
    else k :: dedupKeepFirstAux (k :: seen) ks

/-- pandas `drop_duplicates()`: keep the first occurrence of each key, in
original order. -/
def dedupKeepFirst (ks : List (Nat × String)) : List (Nat × String) :=
  dedupKeepFirstAux [] ks

/-- The payload of the `ValueError` raised by
`_check_unique_date_geoid_pairs`: total duplicate row count, number of
distinct duplicated pairs, and the first up-to-ten pairs shown. -/
structure DupKeyError where
  nDuplicates : Nat
  nUniquePairs : Nat
  samplePairs : List (Nat × String)
deriving DecidableEq, Repr

/-- `DailyMeasureData._check_unique_date_geoid_pairs` (daily_measure.py
352-390): return early on an empty table, otherwise raise iff some
(date, geoid) pair is duplicated. -/
def checkUniqueDateGeoidPairs (rows : List CtxRow) : Except DupKeyError Unit :=
  if rows.isEmpty then Except.ok ()
  else if (duplicatedKeepFalse rows).isEmpty then Except.ok ()
  else
    Except.error
      ⟨(duplicatedKeepFalse rows).length,
        (dedupKeepFirst ((duplicatedKeepFalse rows).map rowKey)).length,
        (dedupKeepFirst ((duplicatedKeepFalse rows).map rowKey)).take 10⟩

/-- The long-format load path of `DailyMeasureData.__init__`: zero-pad every
GEOID to 11 characters, then (if an allow-set is given) keep only rows whose
padded GEOID is in the set. -/
def loadRows (raw : List CtxRow) (gfilter : Option (List String)) : List CtxRow :=
  let padded := raw.map (fun r => ⟨r.date, padGeoid r.geoid, r.value⟩)
  match gfilter with
  | some allow => padded.filter (fun r => r.geoid ∈ allow)
  | none => padded

/-- Materialization of one `DailyMeasureData` wrapper: load (pad + filter),
then run the uniqueness check; the constructor raises iff the check does. -/
def mkDailyMeasureData (raw : List CtxRow) (gfilter : Option (List String)) :
    Except DupKeyError (List CtxRow) :=
  match checkUniqueDateGeoidPairs (loadRows raw gfilter) with
  | Except.ok _ => Except.ok (loadRows raw gfilter)
  | Except.error e => Except.error e

def hasDupKey (rows : List CtxRow) : Prop :=
  ∃ r ∈ rows, 2 ≤ keyCount rows (rowKey r)

instance (rows : List CtxRow) : Decidable (hasDupKey rows) := by
  unfold hasDupKey
  infer_instance

theorem duplicatedKeepFalse_eq_nil_iff (rows : List CtxRow) :
    duplicatedKeepFalse rows = [] ↔ ¬ hasDupKey rows := by
  unfold duplicatedKeepFalse hasDupKey
  rw [List.filter_eq_nil_iff]
  constructor
  · rintro h ⟨r, hr, hcount⟩
    exact h r hr (by simpa using hcount)
  · intro h r hr hp
    exact h ⟨r, hr, by simpa using hp⟩

theorem dedupKeepFirstAux_step (seen : List (Nat × String)) (k : Nat × String)
    (ks : List (Nat × String)) :
    dedupKeepFirstAux seen (k :: ks)
      = if k ∈ seen then dedupKeepFirstAux seen ks
        else k :: dedupKeepFirstAux (k :: seen) ks := rfl

theorem dedupKeepFirstAux_mem (ks : List (Nat × String)) (seen : List (Nat × String))
    (x : Nat × String) :
    x ∈ dedupKeepFirstAux seen ks ↔ x ∈ ks ∧ x ∉ seen := by
  induction ks generalizing seen with
  | nil => simp [dedupKeepFirstAux]
  | cons a as ih =>
    rw [dedupKeepFirstAux_step]
    by_cases ha : a ∈ seen
    · rw [if_pos ha, ih]
      constructor
      · rintro ⟨h1, h2⟩
        exact ⟨List.mem_cons_of_mem a h1, h2⟩
      · rintro ⟨h1, h2⟩
        rcases List.mem_cons.mp h1 with rfl | h3
        · exact absurd ha h2
        · exact ⟨h3, h2⟩
    · rw [if_neg ha, List.mem_cons, ih]
      constructor
      · rintro (rfl | ⟨h1, h2⟩)
        · exact ⟨List.mem_cons_self x as, ha⟩
        · exact ⟨List.mem_cons_of_mem a h1, fun hx => h2 (List.mem_cons_of_mem a hx)⟩
      · rintro ⟨h1, h2⟩
        rcases List.mem_cons.mp h1 with rfl | h3
        · exact Or.inl rfl
        · by_cases hxa : x = a
          · exact Or.inl hxa
          · refine Or.inr ⟨h3, fun hx => ?_⟩
            rcases List.mem_cons.mp hx with h4 | h5
            · exact hxa h4
            · exact h2 h5

theorem dedupKeepFirstAux_nodup (ks : List (Nat × String))
    (seen : List (Nat × String)) : (dedupKeepFirstAux seen ks).Nodup := by
  induction ks generalizing seen with
  | nil => simp [dedupKeepFirstAux]
  | cons a as ih =>
    rw [dedupKeepFirstAux_step]
    by_cases ha : a ∈ seen
    · rw [if_pos ha]
      exact ih seen
    · rw [if_neg ha]
      refine List.nodup_cons.mpr ⟨fun hmem => ?_, ih (a :: seen)⟩
      exact ((dedupKeepFirstAux_mem as (a :: seen) a).mp hmem).2
        (List.mem_cons_self a seen)

theorem dedupKeepFirst_mem (ks : List (Nat × String)) (x : Nat × String) :
    x ∈ dedupKeepFirst ks ↔ x ∈ ks := by
  unfold dedupKeepFirst
  rw [dedupKeepFirstAux_mem]
  simp

theorem dedupKeepFirst_nodup (ks : List (Nat × String)) :
    (dedupKeepFirst ks).Nodup :=
  dedupKeepFirstAux_nodup ks []

theorem keyCount_pos (rows : List CtxRow) (r : CtxRow) (hr : r ∈ rows) :
    1 ≤ keyCount rows (rowKey r) := by
  unfold keyCount
  have hmem : r ∈ rows.filter (fun x => rowKey x = rowKey r) :=
    List.mem_filter.mpr ⟨hr, by simp⟩
  exact List.length_pos.mpr (List.ne_nil_of_mem hmem)

theorem hasDupKey_ne_nil (rows : List CtxRow) (h : hasDupKey rows) : rows ≠ [] := by
  rcases h with ⟨r, hr, _⟩
  exact List.ne_nil_of_mem hr

theorem checkUnique_error_char (rows : List CtxRow) :
    (∃ e, checkUniqueDateGeoidPairs rows = Except.error e) ↔
      (rows ≠ [] ∧ hasDupKey rows) := by
  unfold checkUniqueDateGeoidPairs
  by_cases he : rows.isEmpty
  · rw [if_pos he]
    have hnil : rows = [] := List.isEmpty_iff.mp he
    constructor
    · rintro ⟨e, hcon⟩
      exact Except.noConfusion hcon
    · rintro ⟨h1, _⟩
      exact absurd hnil h1
  · rw [if_neg he]
    have hne : rows ≠ [] := fun hr => he (by simp [hr])
    by_cases hd : (duplicatedKeepFalse rows).isEmpty
    · rw [if_pos hd]
      have hnd : ¬ hasDupKey rows :=
        (duplicatedKeepFalse_eq_nil_iff rows).mp (List.isEmpty_iff.mp hd)
      constructor
      · rintro ⟨e, hcon⟩
        exact Except.noConfusion hcon
      · rintro ⟨_, h2⟩
        exact absurd h2 hnd
    · rw [if_neg hd]
      have hdup : hasDupKey rows := by
        by_contra hnd
        exact hd (by
          rw [List.isEmpty_iff]
          exact (duplicatedKeepFalse_eq_nil_iff rows).mpr hnd)
      exact ⟨fun _ => ⟨hne, hdup⟩, fun _ => ⟨_, rfl⟩⟩

theorem checkUnique_error_value (rows : List CtxRow) (h : hasDupKey rows) :
    checkUniqueDateGeoidPairs rows =
      Except.error
        ⟨(duplicatedKeepFalse rows).length,
          (dedupKeepFirst ((duplicatedKeepFalse rows).map rowKey)).length,
          (dedupKeepFirst ((duplicatedKeepFalse rows).map rowKey)).take 10⟩ := by
  unfold checkUniqueDateGeoidPairs
  have hne : rows ≠ [] := hasDupKey_ne_nil rows h
  rw [if_neg (by simpa [List.isEmpty_iff] using hne),
    if_neg (by
      rw [List.isEmpty_iff]
      intro hcon
      exact absurd h (fun hdup => by
        rw [duplicatedKeepFalse_eq_nil_iff] at hcon
        exact hcon hdup))]

theorem checkUnique_ok_no_dup (rows : List CtxRow)
    (h : checkUniqueDateGeoidPairs rows = Except.ok ()) : ¬ hasDupKey rows := by
  intro hdup
  rw [checkUnique_error_value rows hdup] at h
  exact Except.noConfusion h

/-- C3: if after loading any (date, geoid) pair appears in more than one row,
`DailyMeasureData` construction fails with a duplicate-key error reporting
the total duplicate row count, the number of distinct duplicated pairs, and
up to the first ten such pairs; duplicates are never silently resolved, so
every successfully constructed wrapper has a table whose (date, geoid) pairs
are unique and whose rows are exactly the loaded rows. -/
theorem C3_duplicate_key_check (raw : List CtxRow) (gfilter : Option (List String)) :
    (hasDupKey (loadRows raw gfilter) →
      ∃ e, mkDailyMeasureData raw gfilter = Except.error e ∧
        e.nDuplicates = (duplicatedKeepFalse (loadRows raw gfilter)).length ∧
        e.nUniquePairs
          = (dedupKeepFirst
              ((duplicatedKeepFalse (loadRows raw gfilter)).map rowKey)).length ∧
        e.samplePairs
          = (dedupKeepFirst
              ((duplicatedKeepFalse (loadRows raw gfilter)).map rowKey)).take 10 ∧
        e.samplePairs.length ≤ 10 ∧
        e.samplePairs.Nodup ∧
        (∀ p ∈ e.samplePairs, 2 ≤ keyCount (loadRows raw gfilter) p)) ∧
    (∀ rows, mkDailyMeasureData raw gfilter = Except.ok rows →
      rows = loadRows raw gfilter ∧
      ∀ r ∈ rows, keyCount rows (rowKey r) = 1) := by
  constructor
  · intro hdup
    have hcheck := checkUnique_error_value (loadRows raw gfilter) hdup
    have herr : mkDailyMeasureData raw gfilter = Except.error
        ⟨(duplicatedKeepFalse (loadRows raw gfilter)).length,
          (dedupKeepFirst
            ((duplicatedKeepFalse (loadRows raw gfilter)).map rowKey)).length,
          (dedupKeepFirst
            ((duplicatedKeepFalse (loadRows raw gfilter)).map rowKey)).take 10⟩ := by
      unfold mkDailyMeasureData
      rw [hcheck]
    refine ⟨_, herr, rfl, rfl, rfl, ?_, ?_, ?_⟩
    · exact List.length_take_le 10 _
    · exact (dedupKeepFirst_nodup _).sublist (List.take_sublist 10 _)
    · intro p hp
      have hp1 : p ∈ dedupKeepFirst
          ((duplicatedKeepFalse (loadRows raw gfilter)).map rowKey) :=
        List.take_subset 10 _ hp
      have hp2 : p ∈ (duplicatedKeepFalse (loadRows raw gfilter)).map rowKey :=
        (dedupKeepFirst_mem _ p).mp hp1
      rcases List.mem_map.mp hp2 with ⟨r, hr, hkey⟩
      rcases List.mem_filter.mp hr with ⟨_, hpred⟩
      have : 2 ≤ keyCount (loadRows raw gfilter) (rowKey r) := by simpa using hpred
      rw [← hkey]
      exact this
  · intro rows hok
    unfold mkDailyMeasureData at hok
    cases hcheck : checkUniqueDateGeoidPairs (loadRows raw gfilter) with
    | error e =>
      rw [hcheck] at hok
      exact Except.noConfusion hok
    | ok u =>
      rw [hcheck] at hok
      have h2 : (Except.ok (loadRows raw gfilter) : Except DupKeyError (List CtxRow))
          = Except.ok rows := hok
      have hrows : rows = loadRows raw gfilter := (Except.ok.inj h2).symm
      subst hrows
      refine ⟨rfl, fun r hr => ?_⟩
      cases u
      have hnd := checkUnique_ok_no_dup _ hcheck
      have h1 := keyCount_pos (loadRows raw gfilter) r hr
      have h3 : ¬ 2 ≤ keyCount (loadRows raw gfilter) (rowKey r) :=
        fun hc => hnd ⟨r, hr, hc⟩
      omega

/-- Witness for C3: a table with one duplicated (date, geoid) pair fails
with the fully-populated error. -/
theorem C3_witness :
    ∃ e, mkDailyMeasureData
        [⟨17532, "12345", 5⟩, ⟨17532, "12345", 6⟩, ⟨17533, "12345", 7⟩] none
          = Except.error e ∧
      e.nDuplicates = (duplicatedKeepFalse (loadRows
        [⟨17532, "12345", 5⟩, ⟨17532, "12345", 6⟩, ⟨17533, "12345", 7⟩] none)).length ∧
      e.nUniquePairs = (dedupKeepFirst ((duplicatedKeepFalse (loadRows
        [⟨17532, "12345", 5⟩, ⟨17532, "12345", 6⟩, ⟨17533, "12345", 7⟩]
          none)).map rowKey)).length ∧
      e.samplePairs = (dedupKeepFirst ((duplicatedKeepFalse (loadRows
        [⟨17532, "12345", 5⟩, ⟨17532, "12345", 6⟩, ⟨17533, "12345", 7⟩]
          none)).map rowKey)).take 10 ∧
      e.samplePairs.length ≤ 10 ∧
      e.samplePairs.Nodup ∧
      (∀ p ∈ e.samplePairs, 2 ≤ keyCount (loadRows
        [⟨17532, "12345", 5⟩, ⟨17532, "12345", 6⟩, ⟨17533, "12345", 7⟩] none) p) :=
  (C3_duplicate_key_check
    [⟨17532, "12345", 5⟩, ⟨17532, "12345", 6⟩, ⟨17533, "12345", 7⟩] none).1
    (by decide)

/-- C10: the duplicate-(date, geoid) check raises iff the loaded table is
non-empty and contains a duplicated pair; and when the GEOID allow-set
filters out every row of a source file, construction still succeeds with an
empty table. -/
theorem C10_check_iff_empty_ok (rows raw : List CtxRow) (allow : List String) :
    ((∃ e, checkUniqueDateGeoidPairs rows = Except.error e) ↔
      (rows ≠ [] ∧ hasDupKey rows)) ∧
    ((∀ r ∈ raw, padGeoid r.geoid ∉ allow) →
      mkDailyMeasureData raw (some allow) = Except.ok []) := by
  refine ⟨checkUnique_error_char rows, fun hall => ?_⟩
  have hnil : loadRows raw (some allow) = [] := by
    unfold loadRows
    rw [List.filter_eq_nil_iff]
    intro x hx
    rcases List.mem_map.mp hx with ⟨r, hr, hmap⟩
    subst hmap
    simpa using hall r hr
  unfold mkDailyMeasureData
  rw [hnil]
  rfl

/-- Witness for C10: an allow-set that excludes the only row still yields a
successfully constructed, empty wrapper. -/
theorem C10_witness :
    mkDailyMeasureData [⟨17532, "99", 1⟩] (some ["00000000001"]) = Except.ok [] :=
  (C10_check_iff_empty_ok [] [⟨17532, "99", 1⟩] ["00000000001"]).2 (by decide)

/-! ## `data_col` / `measure_type` resolution (daily_measure.py 10-16,
130-139, 530-539) -/

/-- `FILENAME_TO_VARNAME_DICT` (daily_measure.py lines 10-16). -/
def FILENAME_TO_VARNAME_DICT : List (String × String) :=
  [("tmmx", "Tmax"), ("rmin", "Rmin"), ("pm25", "pm25"),
   ("ozone", "o3"), ("heat_index", "HeatIndex")]

inductive ConfigError where
  | configurationError
  | keyError (k : String)
deriving DecidableEq, Repr

/-- The `data_col` argument of `DailyMeasureData.__init__`: a single column
name, a list of names, or omitted (`None`). -/
inductive DataColArg where
  | one (s : String)
  | many (l : List String)
  | noneArg
deriving DecidableEq, Repr

/-- The `data_col` / `measure_type` resolution in `DailyMeasureData.__init__`
(daily_measure.py 130-139): if `data_col` is None, `measure_type` must be
given (else `ValueError`, the spec's `ConfigurationError`) and is looked up
in the static dict (a missing key raises `KeyError`); a string `data_col` is
normalized to a one-element list. An explicit `data_col` always wins. -/
def resolveDataCol (data_col : DataColArg) (measure_type : Option String) :
    Except ConfigError (List String) :=
  match data_col with
  | .one s => Except.ok [s]
  | .many l => Except.ok l
  | .noneArg =>
    match measure_type with
    | none => Except.error ConfigError.configurationError
    | some m =>
      match FILENAME_TO_VARNAME_DICT.find? (fun p => p.1 = m) with
      | some p => Except.ok [p.2]
      | none => Except.error (ConfigError.keyError m)

/-- C5 counterexample: supplying BOTH an explicit data column and a measure
type does not fail — the explicit column wins and the measure type is
ignored — contradicting the claim that construction fails when both are
supplied. -/
theorem C5_counterexample :
    resolveDataCol (DataColArg.one "HeatIndex") (some "heat_index")
      = Except.ok ["HeatIndex"] := rfl

/-- C5, amended: construction fails with a ConfigurationError exactly when
neither the explicit data column nor the measure type is supplied; whenever
an explicit data column is supplied the resolution succeeds with it
(regardless of whether a measure type is also given, which is then ignored);
and with only a measure type, the static lookup resolves it (a measure type
absent from the lookup raises a KeyError instead). -/
theorem C5_config_resolution :
    (∀ dc mt, resolveDataCol dc mt = Except.error ConfigError.configurationError ↔
      (dc = DataColArg.noneArg ∧ mt = none)) ∧
    (∀ s mt, resolveDataCol (DataColArg.one s) mt = Except.ok [s]) ∧
    (∀ l mt, resolveDataCol (DataColArg.many l) mt = Except.ok l) ∧
    (∀ m p, FILENAME_TO_VARNAME_DICT.find? (fun q => q.1 = m) = some p →
      resolveDataCol DataColArg.noneArg (some m) = Except.ok [p.2]) ∧
    (∀ m, FILENAME_TO_VARNAME_DICT.find? (fun q => q.1 = m) = none →
      resolveDataCol DataColArg.noneArg (some m)
        = Except.error (ConfigError.keyError m)) := by
  refine ⟨?_, fun s mt => rfl, fun l mt => rfl, ?_, ?_⟩
  · intro dc mt
    cases dc with
    | one s =>
      simp only [resolveDataCol]
      constructor
      · intro h
        exact Except.noConfusion h
      · rintro ⟨h, _⟩
        exact DataColArg.noConfusion h
    | many l =>
      simp only [resolveDataCol]
      constructor
      · intro h
        exact Except.noConfusion h
      · rintro ⟨h, _⟩
        exact DataColArg.noConfusion h
    | noneArg =>
      cases mt with
      | none => simp [resolveDataCol]
      | some m =>
        simp only [resolveDataCol]
        cases hf : FILENAME_TO_VARNAME_DICT.find? (fun p => p.1 = m) with
        | some p =>
          constructor
          · intro h
            exact Except.noConfusion h
          · rintro ⟨_, h⟩
            exact Option.noConfusion h
        | none =>
          constructor
          · intro h
            exact absurd (Except.error.inj h) (by simp)
          · rintro ⟨_, h⟩
            exact Option.noConfusion h
  · intro m p hfind
    simp only [resolveDataCol, hfind]
  · intro m hfind
    simp only [resolveDataCol, hfind]

/-- Witness for C5: concrete instances — neither argument errors; only a
known measure type resolves through the dict; an unknown one is a KeyError. -/
theorem C5_witness :
    resolveDataCol DataColArg.noneArg none
        = Except.error ConfigError.configurationError ∧
    resolveDataCol DataColArg.noneArg (some "pm25") = Except.ok ["pm25"] ∧
    resolveDataCol DataColArg.noneArg (some "heat")
        = Except.error (ConfigError.keyError "heat") := by
  refine ⟨(C5_config_resolution.1 DataColArg.noneArg none).mpr ⟨rfl, rfl⟩, ?_, ?_⟩
  · exact C5_config_resolution.2.2.2.1 "pm25" ("pm25", "pm25") (by decide)
  · exact C5_config_resolution.2.2.2.2 "heat" (by decide)

/-! ## `DailyMeasureDataDir._build_year_file_map` (daily_measure.py 406,
593-603)

`YEAR_PATTERN = re.compile(r"(\d\x7b4\x7d)")` and `YEAR_PATTERN.search`
returns the leftmost run of four consecutive digit characters; the loop over
the sorted candidate files raises on a name with no match and on a year
already present in the mapping (Python dicts preserve insertion order). -/

/-- Try to match four consecutive digit characters at the head. -/
def matchFourDigitsAt : List Char → Option String
  | a :: b :: c :: d :: _ =>
    if a.isDigit ∧ b.isDigit ∧ c.isDigit ∧ d.isDigit then some ⟨[a, b, c, d]⟩
    else none
  | _ => none

/-- `YEAR_PATTERN.search(name)`: leftmost match of four consecutive digits. -/
def searchYear : List Char → Option String
  | [] => none
  | c :: rest =>
    match matchFourDigitsAt (c :: rest) with
    | some y => some y
    | none => searchYear rest

/-- The year extracted from a filename, defaulting to `""` when no token
exists (only used to describe successful runs, where a token always
exists). -/
def yearOf (f : String) : String :=
  (searchYear f.data).getD ""

inductive YearMapError where
  | parseError (fname : String)
  | duplicateYear (year : String)
deriving DecidableEq, Repr

/-- Loop body of `_build_year_file_map`: `ValueError` (the spec's
`ParseError`) when no year token is found, `ValueError` (the spec's
`ConfigurationError`) when the year is already mapped. -/
def buildYearFileMapAux (mapping : List (String × String)) :
    List String → Except YearMapError (List (String × String))
  | [] => Except.ok mapping
  | f :: fs =>
    match searchYear f.data with
    | none => Except.error (YearMapError.parseError f)
    | some y =>
      if mapping.any (fun p => p.1 = y) then
        Except.error (YearMapError.duplicateYear y)
      else buildYearFileMapAux (mapping ++ [(y, f)]) fs

/-- `DailyMeasureDataDir._build_year_file_map` over the candidate file
names. -/
def buildYearFileMap (files : List String) :
    Except YearMapError (List (String × String)) :=
  buildYearFileMapAux [] files

theorem searchYear_cons (c : Char) (rest : List Char) :
    searchYear (c :: rest)
      = match matchFourDigitsAt (c :: rest) with
        | some y => some y
        | none => searchYear rest := rfl

theorem buildYearFileMapAux_cons (mapping : List (String × String))
    (f : String) (fs : List String) :
    buildYearFileMapAux mapping (f :: fs)
      = match searchYear f.data with
        | none => Except.error (YearMapError.parseError f)
        | some y =>
          if mapping.any (fun p => p.1 = y) then
            Except.error (YearMapError.duplicateYear y)
          else buildYearFileMapAux (mapping ++ [(y, f)]) fs := rfl

theorem matchFourDigitsAt_shape (cs : List Char) (y : String)
    (h : matchFourDigitsAt cs = some y) :
    y.data.length = 4 ∧ ∀ c ∈ y.data, c.isDigit := by
  rcases cs with _ | ⟨a, _ | ⟨b, _ | ⟨c, _ | ⟨d, rest⟩⟩⟩⟩
  · exact Option.noConfusion h
  · exact Option.noConfusion h
  · exact Option.noConfusion h
  · exact Option.noConfusion h
  · have hstep : matchFourDigitsAt (a :: b :: c :: d :: rest)
        = if a.isDigit ∧ b.isDigit ∧ c.isDigit ∧ d.isDigit
          then some ⟨[a, b, c, d]⟩ else none := rfl
    rw [hstep] at h
    by_cases hd : a.isDigit ∧ b.isDigit ∧ c.isDigit ∧ d.isDigit
    · rw [if_pos hd] at h
      have hy : (⟨[a, b, c, d]⟩ : String) = y := Option.some.inj h
      subst hy
      refine ⟨rfl, ?_⟩
      intro x hx
      simp only [List.mem_cons, List.not_mem_nil, or_false] at hx
      rcases hx with rfl | rfl | rfl | rfl
      · exact hd.1
      · exact hd.2.1
      · exact hd.2.2.1
      · exact hd.2.2.2
    · rw [if_neg hd] at h
      exact Option.noConfusion h

theorem searchYear_shape (cs : List Char) (y : String)
    (h : searchYear cs = some y) :
    y.data.length = 4 ∧ ∀ c ∈ y.data, c.isDigit := by
  induction cs with
  | nil => exact Option.noConfusion h
  | cons c rest ih =>
    rw [searchYear_cons] at h
    cases hm : matchFourDigitsAt (c :: rest) with
    | some y2 =>
      rw [hm] at h
      have hy : y2 = y := Option.some.inj h
      subst hy
      exact matchFourDigitsAt_shape _ _ hm
    | none =>
      rw [hm] at h
      exact ih h

def countYearFiles (files : List String) (y : String) : Nat :=
  (files.filter (fun f => searchYear f.data = some y)).length

theorem buildYearFileMapAux_cons_none (m : List (String × String)) (f : String)
    (fs : List String) (hm : searchYear f.data = none) :
    buildYearFileMapAux m (f :: fs) = Except.error (YearMapError.parseError f) := by
  rw [buildYearFileMapAux_cons, hm]

theorem buildYearFileMapAux_cons_some (m : List (String × String)) (f : String)
    (fs : List String) (y : String) (hm : searchYear f.data = some y) :
    buildYearFileMapAux m (f :: fs)
      = if m.any (fun p => p.1 = y) then
          Except.error (YearMapError.duplicateYear y)
        else buildYearFileMapAux (m ++ [(y, f)]) fs := by
  rw [buildYearFileMapAux_cons, hm]

theorem buildYearFileMapAux_ok_val (fs : List String) (m m2 : List (String × String))
    (h : buildYearFileMapAux m fs = Except.ok m2) :
    m2 = m ++ fs.map (fun f => (yearOf f, f)) := by
  induction fs generalizing m with
  | nil =>
    have hm : m = m2 := Except.ok.inj h
    simp [← hm]
  | cons f fs ih =>
    cases hm : searchYear f.data with
    | none =>
      rw [buildYearFileMapAux_cons_none m f fs hm] at h
      exact Except.noConfusion h
    | some y =>
      rw [buildYearFileMapAux_cons_some m f fs y hm] at h
      by_cases hany : m.any (fun p => p.1 = y)
      · rw [if_pos hany] at h
        exact Except.noConfusion h
      · rw [if_neg hany] at h
        have hval := ih (m ++ [(y, f)]) h
        rw [hval]
        simp [yearOf, hm]

theorem buildYearFileMapAux_ok_iff (fs : List String) (m : List (String × String)) :
    (∃ m2, buildYearFileMapAux m fs = Except.ok m2) ↔
      ((∀ f ∈ fs, (searchYear f.data).isSome = true) ∧
       (fs.map yearOf).Nodup ∧
       (∀ y ∈ fs.map yearOf, m.any (fun p => p.1 = y) = false)) := by
  induction fs generalizing m with
  | nil => simp [buildYearFileMapAux]
  | cons f fs ih =>
    cases hm : searchYear f.data with
    | none =>
      rw [show (∃ m2, buildYearFileMapAux m (f :: fs) = Except.ok m2) ↔ False from
        ⟨fun ⟨m2, hcon⟩ => by
          rw [buildYearFileMapAux_cons_none m f fs hm] at hcon
          exact Except.noConfusion hcon, False.elim⟩]
      constructor
      · exact False.elim
      · rintro ⟨hall, _, _⟩
        have hf := hall f (List.mem_cons_self f fs)
        rw [hm] at hf
        exact Bool.false_ne_true hf
    | some y =>
      have hyf : yearOf f = y := by simp [yearOf, hm]
      by_cases hany : m.any (fun p => p.1 = y)
      · rw [show (∃ m2, buildYearFileMapAux m (f :: fs) = Except.ok m2) ↔ False from
          ⟨fun ⟨m2, hcon⟩ => by
            rw [buildYearFileMapAux_cons_some m f fs y hm, if_pos hany] at hcon
            exact Except.noConfusion hcon, False.elim⟩]
        constructor
        · exact False.elim
        · rintro ⟨_, _, hnone⟩
          have hy := hnone y (by
            rw [List.map_cons, hyf]
            exact List.mem_cons_self _ _)
          rw [hy] at hany
          exact Bool.false_ne_true hany
      · rw [show (∃ m2, buildYearFileMapAux m (f :: fs) = Except.ok m2) ↔
            (∃ m2, buildYearFileMapAux (m ++ [(y, f)]) fs = Except.ok m2) from by
          rw [buildYearFileMapAux_cons_some m f fs y hm, if_neg hany]]
        rw [ih]
        constructor
        · rintro ⟨hall, hnd, hnone⟩
          refine ⟨?_, ?_, ?_⟩
          · intro g hg
            rcases List.mem_cons.mp hg with rfl | hg2
            · rw [hm]; rfl
            · exact hall g hg2
          · rw [List.map_cons, hyf, List.nodup_cons]
            refine ⟨fun hcon => ?_, hnd⟩
            have hy := hnone y hcon
            rw [List.any_append] at hy
            simp at hy
          · intro y' hy'
            rw [List.map_cons, hyf] at hy'
            rcases List.mem_cons.mp hy' with rfl | hy2
            · exact Bool.eq_false_iff.mpr hany
            · have hy := hnone y' hy2
              rw [List.any_append, Bool.or_eq_false_iff] at hy
              exact hy.1
        · rintro ⟨hall, hnd, hnone⟩
          rw [List.map_cons, hyf, List.nodup_cons] at hnd
          refine ⟨fun g hg => hall g (List.mem_cons_of_mem f hg), hnd.2, ?_⟩
          intro y' hy2
          rw [List.any_append, Bool.or_eq_false_iff]
          constructor
          · exact hnone y' (by
              rw [List.map_cons, hyf]
              exact List.mem_cons_of_mem y hy2)
          · have hne : y ≠ y' := fun hcon => hnd.1 (hcon ▸ hy2)
            simp [hne]

theorem buildYearFileMapAux_parseError (fs : List String)
    (m : List (String × String)) (f : String)
    (h : buildYearFileMapAux m fs = Except.error (YearMapError.parseError f)) :
    f ∈ fs ∧ searchYear f.data = none := by
  induction fs generalizing m with
  | nil => exact Except.noConfusion h
  | cons g fs ih =>
    cases hm : searchYear g.data with
    | none =>
      rw [buildYearFileMapAux_cons_none m g fs hm] at h
      have hgf : g = f := YearMapError.parseError.inj (Except.error.inj h)
      subst hgf
      exact ⟨List.mem_cons_self g fs, hm⟩
    | some y =>
      rw [buildYearFileMapAux_cons_some m g fs y hm] at h
      by_cases hany : m.any (fun p => p.1 = y)
      · rw [if_pos hany] at h
        exact YearMapError.noConfusion (Except.error.inj h)
      · rw [if_neg hany] at h
        have hih := ih (m ++ [(y, g)]) h
        exact ⟨List.mem_cons_of_mem g hih.1, hih.2⟩

theorem buildYearFileMapAux_dupYear (fs : List String)
    (m : List (String × String)) (y : String)
    (h : buildYearFileMapAux m fs = Except.error (YearMapError.duplicateYear y)) :
    2 ≤ countYearFiles fs y + (if m.any (fun p => p.1 = y) then 1 else 0) := by
  induction fs generalizing m with
  | nil => exact Except.noConfusion h
  | cons g fs ih =>
    cases hm : searchYear g.data with
    | none =>
      rw [buildYearFileMapAux_cons_none m g fs hm] at h
      exact YearMapError.noConfusion (Except.error.inj h)
    | some y' =>
      rw [buildYearFileMapAux_cons_some m g fs y' hm] at h
      by_cases hany : m.any (fun p => p.1 = y')
      · rw [if_pos hany] at h
        have hyy : y' = y :=
          YearMapError.duplicateYear.inj (Except.error.inj h)
        subst hyy
        have hcount : 1 ≤ countYearFiles (g :: fs) y' := by
          unfold countYearFiles
          have hmem : g ∈ (g :: fs).filter (fun x => searchYear x.data = some y') :=
            List.mem_filter.mpr ⟨List.mem_cons_self g fs, by simp [hm]⟩
          exact List.length_pos.mpr (List.ne_nil_of_mem hmem)
        rw [if_pos hany]
        omega
      · rw [if_neg hany] at h
        have hih := ih (m ++ [(y', g)]) h
        by_cases hyy : y' = y
        · subst hyy
          have hind : (m ++ [(y', g)]).any (fun p => p.1 = y') = true := by
            simp [List.any_append]
          rw [if_pos hind] at hih
          have hcons : countYearFiles (g :: fs) y' = countYearFiles fs y' + 1 := by
            unfold countYearFiles
            rw [List.filter_cons_of_pos (by simp [hm])]
            simp
          have hand : m.any (fun p => p.1 = y') = false :=
            Bool.eq_false_iff.mpr hany
          rw [hcons, hand]
          simp only [Bool.false_eq_true, if_false]
          omega
        · have hind : (m ++ [(y', g)]).any (fun p => p.1 = y)
              = m.any (fun p => p.1 = y) := by
            simp [List.any_append, hyy]
          rw [hind] at hih
          have hcons : countYearFiles (g :: fs) y = countYearFiles fs y := by
            unfold countYearFiles
            rw [List.filter_cons_of_neg (by simp [hm, hyy])]
          rw [hcons]
          exact hih

/-- C6 counterexample: a filename containing two distinct 4-digit year
tokens ("2015" at offset 5, "2016" at offset 10) is NOT rejected —
`YEAR_PATTERN.search` takes the first match and the map is built
successfully. -/
theorem C6_counterexample :
    buildYearFileMap ["heat_2015_2016.csv"]
        = Except.ok [("2015", "heat_2015_2016.csv")] ∧
    matchFourDigitsAt (List.drop 5 "heat_2015_2016.csv".data) = some "2015" ∧
    matchFourDigitsAt (List.drop 10 "heat_2015_2016.csv".data) = some "2016" := by
  refine ⟨?_, ?_, ?_⟩
  · rfl
  · rfl
  · rfl

/-- C6, amended: `_build_year_file_map` extracts from each candidate
filename the LEFTMOST run of four consecutive digits (a well-formed 4-digit
all-digit token); construction fails with a ParseError exactly on a filename
with no such run, fails with a ConfigurationError (duplicate year) only when
at least two candidate files yield the same first token, and succeeds iff
every filename has a token and the first tokens are pairwise distinct — a
filename containing several distinct 4-digit tokens is accepted, keyed by
its first token. -/
theorem C6_year_file_map (files : List String) :
    ((∃ m, buildYearFileMap files = Except.ok m) ↔
      ((∀ f ∈ files, (searchYear f.data).isSome = true) ∧
       (files.map yearOf).Nodup)) ∧
    (∀ m, buildYearFileMap files = Except.ok m →
      m = files.map (fun f => (yearOf f, f))) ∧
    (∀ (f : String) (y : String), searchYear f.data = some y →
      y.data.length = 4 ∧ ∀ c ∈ y.data, c.isDigit) ∧
    (∀ (f : String),
      buildYearFileMap files = Except.error (YearMapError.parseError f) →
      f ∈ files ∧ searchYear f.data = none) ∧
    (∀ y, buildYearFileMap files = Except.error (YearMapError.duplicateYear y) →
      2 ≤ countYearFiles files y) := by
  refine ⟨?_, ?_, ?_, ?_, ?_⟩
  · rw [show buildYearFileMap files = buildYearFileMapAux [] files from rfl,
      buildYearFileMapAux_ok_iff]
    constructor
    · rintro ⟨h1, h2, _⟩
      exact ⟨h1, h2⟩
    · rintro ⟨h1, h2⟩
      exact ⟨h1, h2, fun y _ => rfl⟩
  · intro m hm
    have := buildYearFileMapAux_ok_val files [] m hm
    simpa using this
  · intro f y hy
    exact searchYear_shape f.data y hy
  · intro f hf
    exact buildYearFileMapAux_parseError files [] f hf
  · intro y hy
    have := buildYearFileMapAux_dupYear files [] y hy
    simpa using this

/-- Witness for C6: two well-formed yearly files build the expected map;
a no-token name gives a ParseError; two files sharing a year give a
duplicate-year error with at least two matching files. -/
theorem C6_witness :
    (∃ m, buildYearFileMap ["heat_2015.csv", "heat_2016.csv"] = Except.ok m) ∧
    (∀ m, buildYearFileMap ["heat_2015.csv", "heat_2016.csv"] = Except.ok m →
      m = [("2015", "heat_2015.csv"), ("2016", "heat_2016.csv")]) ∧
    ("heat.csv" ∈ ["heat_2015.csv", "heat.csv"] ∧
      searchYear "heat.csv".data = none) ∧
    2 ≤ countYearFiles ["heat_2015.csv", "heat_2015.parquet"] "2015" := by
  refine ⟨?_, ?_, ?_, ?_⟩
  · exact (C6_year_file_map ["heat_2015.csv", "heat_2016.csv"]).1.mpr (by decide)
  · intro m hm
    have := (C6_year_file_map ["heat_2015.csv", "heat_2016.csv"]).2.1 m hm
    rw [this]
    rfl
  · exact (C6_year_file_map ["heat_2015.csv", "heat.csv"]).2.2.2.1 "heat.csv"
      (by rfl)
  · exact (C6_year_file_map ["heat_2015.csv", "heat_2015.parquet"]).2.2.2.2 "2015"
      (by rfl)

/-! ## Dates and `compute_required_years` (process.py 44-86, 195-203)

A pandas `Timestamp` at day resolution is modeled as a day count in the
proleptic Gregorian calendar (epoch 0000-03-01), with `yearOfDay` the
calendar-year extraction (`.year`) and `daysFromCivil` the inverse used to
write concrete dates; `- pd.Timedelta(days=n)` is day-number subtraction. -/

def daysFromCivil (y m d : Nat) : Nat :=
  let y1 := if m ≤ 2 then y - 1 else y
  let era := y1 / 400
  let yoe := y1 % 400
  let mp := (m + 9) % 12
  let doy := (153 * mp + 2) / 5 + d - 1
  let doe := yoe * 365 + yoe / 4 - yoe / 100 + doy
  era * 146097 + doe

def yearOfDay (z : Nat) : Nat :=
  let era := z / 146097
  let doe := z % 146097
  let yoe := (doe - doe / 1460 + doe / 36524 - doe / 146096) / 365
  let y := yoe + era * 400
  let doy := doe - (365 * yoe + yoe / 4 - yoe / 100)
  let mp := (5 * doy + 2) / 153
  let m := if mp < 10 then mp + 3 else mp - 9
  if m ≤ 2 then y + 1 else y

/-- pandas `Series.min()` over the survey date column. -/
def listMinNat (l : List Nat) : Nat :=
  l.foldl min (l.headD 0)

/-- pandas `Series.max()` over the survey date column. -/
def listMaxNat (l : List Nat) : Nat :=
  l.foldl max (l.headD 0)

/-- `compute_required_years` (process.py 44-86):
`range((dates.min() - Timedelta(days=max_lag)).year, dates.max().year + 1)`
as a list. -/
def compute_required_years (dates : List Nat) (maxLagDays : Nat) : List Nat :=
  (List.range (yearOfDay (listMaxNat dates) + 1
      - yearOfDay (listMinNat dates - maxLagDays))).map
    (fun i => yearOfDay (listMinNat dates - maxLagDays) + i)

/-- Step 3 of `process_multiple_lags_batch` (process.py 195-198; identical
in the parallel path 333-336):
`[str(y) for y in required_years if str(y) in available_years]`. -/
def years_to_load (dates : List Nat) (maxLagDays : Nat)
    (available : List String) : List String :=
  (compute_required_years dates maxLagDays).filterMap
    (fun y => if toString y ∈ available then some (toString y) else none)

theorem foldl_min_le (as : List Nat) (init : Nat) :
    as.foldl min init ≤ init ∧ ∀ d ∈ as, as.foldl min init ≤ d := by
  induction as generalizing init with
  | nil => exact ⟨le_refl _, by simp⟩
  | cons a as ih =>
    rw [List.foldl_cons]
    have h := ih (min init a)
    refine ⟨le_trans h.1 (min_le_left _ _), ?_⟩
    intro d hd
    rcases List.mem_cons.mp hd with rfl | hd2
    · exact le_trans h.1 (min_le_right _ _)
    · exact h.2 d hd2

theorem foldl_min_mem (as : List Nat) (init : Nat) :
    as.foldl min init = init ∨ as.foldl min init ∈ as := by
  induction as generalizing init with
  | nil => exact Or.inl rfl
  | cons a as ih =>
    rw [List.foldl_cons]
    rcases ih (min init a) with h | h
    · rcases le_total init a with hle | hle
      · exact Or.inl (by rw [h, min_eq_left hle])
      · exact Or.inr (by
          rw [h, min_eq_right hle]
          exact List.mem_cons_self a as)
    · exact Or.inr (List.mem_cons_of_mem a h)

theorem foldl_max_le (as : List Nat) (init : Nat) :
    init ≤ as.foldl max init ∧ ∀ d ∈ as, d ≤ as.foldl max init := by
  induction as generalizing init with
  | nil => exact ⟨le_refl _, by simp⟩
  | cons a as ih =>
    rw [List.foldl_cons]
    have h := ih (max init a)
    refine ⟨le_trans (le_max_left _ _) h.1, ?_⟩
    intro d hd
    rcases List.mem_cons.mp hd with rfl | hd2
    · exact le_trans (le_max_right _ _) h.1
    · exact h.2 d hd2

theorem foldl_max_mem (as : List Nat) (init : Nat) :
    as.foldl max init = init ∨ as.foldl max init ∈ as := by
  induction as generalizing init with
  | nil => exact Or.inl rfl
  | cons a as ih =>
    rw [List.foldl_cons]
    rcases ih (max init a) with h | h
    · rcases le_total a init with hle | hle
      · exact Or.inl (by rw [h, max_eq_left hle])
      · exact Or.inr (by
          rw [h, max_eq_right hle]
          exact List.mem_cons_self a as)
    · exact Or.inr (List.mem_cons_of_mem a h)

theorem listMinNat_spec (l : List Nat) (h : l ≠ []) :
    listMinNat l ∈ l ∧ ∀ d ∈ l, listMinNat l ≤ d := by
  match l, h with
  | a :: as, _ =>
    unfold listMinNat
    constructor
    · rcases foldl_min_mem (a :: as) ((a :: as).headD 0) with hm | hm
      · rw [hm]
        exact List.mem_cons_self a as
      · exact hm
    · exact (foldl_min_le (a :: as) ((a :: as).headD 0)).2

theorem listMaxNat_spec (l : List Nat) (h : l ≠ []) :
    listMaxNat l ∈ l ∧ ∀ d ∈ l, d ≤ listMaxNat l := by
  match l, h with
  | a :: as, _ =>
    unfold listMaxNat
    constructor
    · rcases foldl_max_mem (a :: as) ((a :: as).headD 0) with hm | hm
      · rw [hm]
        exact List.mem_cons_self a as
      · exact hm
    · exact (foldl_max_le (a :: as) ((a :: as).headD 0)).2

/-- C7: the required contextual year range is every calendar year from the
year of (minimum survey date − maximum lag in days) through the year of the
maximum survey date, inclusive and contiguous (membership characterization +
strictly ascending order, over the true minimum/maximum of the date column);
the 2016-01-01..2020-12-31 / 180-day example returns [2015..2020]; and the
orchestrator's `years_to_load` keeps exactly the returned years that are
available in the collection. -/
theorem C7_required_years (dates : List Nat) (maxLagDays : Nat)
    (available : List String) (hne : dates ≠ []) :
    (∀ y, y ∈ compute_required_years dates maxLagDays ↔
      (yearOfDay (listMinNat dates - maxLagDays) ≤ y ∧
       y ≤ yearOfDay (listMaxNat dates))) ∧
    (compute_required_years dates maxLagDays).Pairwise (· < ·) ∧
    (listMinNat dates ∈ dates ∧ ∀ d ∈ dates, listMinNat dates ≤ d) ∧
    (listMaxNat dates ∈ dates ∧ ∀ d ∈ dates, d ≤ listMaxNat dates) ∧
    (∀ s, s ∈ years_to_load dates maxLagDays available ↔
      (s ∈ available ∧
        ∃ y ∈ compute_required_years dates maxLagDays, toString y = s)) ∧
    compute_required_years
        [daysFromCivil 2016 1 1, daysFromCivil 2020 12 31] 180
      = [2015, 2016, 2017, 2018, 2019, 2020] := by
  refine ⟨?_, ?_, listMinNat_spec dates hne, listMaxNat_spec dates hne, ?_, ?_⟩
  · intro y
    unfold compute_required_years
    simp only [List.mem_map, List.mem_range]
    constructor
    · rintro ⟨i, hi, rfl⟩
      omega
    · rintro ⟨h1, h2⟩
      exact ⟨y - yearOfDay (listMinNat dates - maxLagDays), by omega, by omega⟩
  · unfold compute_required_years
    rw [List.pairwise_map]
    exact (List.pairwise_lt_range _).imp (fun h => by omega)
  · intro s
    unfold years_to_load
    rw [List.mem_filterMap]
    constructor
    · rintro ⟨y, hy, hf⟩
      by_cases hin : toString y ∈ available
      · rw [if_pos hin] at hf
        have hs : toString y = s := Option.some.inj hf
        exact ⟨hs ▸ hin, y, hy, hs⟩
      · rw [if_neg hin] at hf
        exact Option.noConfusion hf
    · rintro ⟨hin, y, hy, hs⟩
      refine ⟨y, hy, ?_⟩
      rw [if_pos (hs ▸ hin), hs]
  · decide

/-- Witness for C7: the spec's concrete example, with 2015 in the range and
the availability intersection keeping exactly the available returned
years. -/
theorem C7_witness :
    2015 ∈ compute_required_years
        [daysFromCivil 2016 1 1, daysFromCivil 2020 12 31] 180 ∧
    years_to_load [daysFromCivil 2016 1 1, daysFromCivil 2020 12 31] 180
        ["2014", "2015", "2016"] = ["2015", "2016"] := by
  constructor
  · exact ((C7_required_years
      [daysFromCivil 2016 1 1, daysFromCivil 2020 12 31] 180
      ["2014", "2015", "2016"] (by decide)).1 2015).mpr (by decide)
  · decide

/-! ## `DailyMeasureDataDir` lazy cache and GEOID filter (daily_measure.py
544, 590, 650-679)

The mutable collection state is passed explicitly: the current
`geoid_filter`, the year→file map (holding each file's raw rows), and the
year→wrapper cache (appended to in insertion order, as a Python dict). -/

structure DirState where
  geoid_filter : Option (List String)
  year_to_file : List (String × List CtxRow)
  cache : List (String × List CtxRow)
deriving DecidableEq, Repr

def lookupA (l : List (String × List CtxRow)) (k : String) :
    Option (List CtxRow) :=
  (l.find? (fun p => p.1 = k)).map Prod.snd

inductive GetItemError where
  | keyError (year : String)
  | dupError (e : DupKeyError)
deriving DecidableEq, Repr

/-- `DailyMeasureDataDir.__getitem__` (daily_measure.py 650-679): KeyError
when the year is not in the map; return the cached wrapper if present
(without touching it); otherwise construct a `DailyMeasureData` with the
collection's CURRENT `geoid_filter`, cache it, and return it. -/
def dirGetItem (st : DirState) (year : String) :
    Except GetItemError (List CtxRow × DirState) :=
  match lookupA st.year_to_file year with
  | none => Except.error (GetItemError.keyError year)
  | some raw =>
    match lookupA st.cache year with
    | some w => Except.ok (w, st)
    | none =>
      match mkDailyMeasureData raw st.geoid_filter with
      | Except.error e => Except.error (GetItemError.dupError e)
      | Except.ok rows =>
        Except.ok (rows, { st with cache := st.cache ++ [(year, rows)] })

/-- The attribute assignment `contextual_dir.geoid_filter = ...`
(process.py 202, 340). -/
def setGeoidFilter (st : DirState) (f : Option (List String)) : DirState :=
  { st with geoid_filter := f }

theorem lookupA_append_self (l : List (String × List CtxRow)) (k : String)
    (v : List CtxRow) (h : lookupA l k = none) :
    lookupA (l ++ [(k, v)]) k = some v := by
  unfold lookupA at h ⊢
  induction l with
  | nil => simp
  | cons p l ih =>
    by_cases hp : p.1 = k
    · rw [List.find?_cons_of_pos _ (by simpa using hp)] at h
      exact Option.noConfusion h
    · rw [List.find?_cons_of_neg _ (by simpa using hp)] at h
      rw [List.cons_append, List.find?_cons_of_neg _ (by simpa using hp)]
      exact ih h

theorem dirGetItem_keyError (st : DirState) (year : String)
    (h1 : lookupA st.year_to_file year = none) :
    dirGetItem st year = Except.error (GetItemError.keyError year) := by
  unfold dirGetItem
  rw [h1]

theorem dirGetItem_cached_eq (st : DirState) (year : String)
    (raw w : List CtxRow)
    (h1 : lookupA st.year_to_file year = some raw)
    (h2 : lookupA st.cache year = some w) :
    dirGetItem st year = Except.ok (w, st) := by
  unfold dirGetItem
  rw [h1, h2]

theorem dirGetItem_uncached_eq (st : DirState) (year : String)
    (raw : List CtxRow)
    (h1 : lookupA st.year_to_file year = some raw)
    (h2 : lookupA st.cache year = none) :
    dirGetItem st year
      = match mkDailyMeasureData raw st.geoid_filter with
        | Except.error e => Except.error (GetItemError.dupError e)
        | Except.ok rows =>
          Except.ok (rows, { st with cache := st.cache ++ [(year, rows)] }) := by
  unfold dirGetItem
  rw [h1, h2]

theorem dirGetItem_ok_facts (st : DirState) (year : String) (w : List CtxRow)
    (st1 : DirState) (h : dirGetItem st year = Except.ok (w, st1)) :
    st1.year_to_file = st.year_to_file ∧
    st1.geoid_filter = st.geoid_filter ∧
    (∃ raw, lookupA st.year_to_file year = some raw) ∧
    lookupA st1.cache year = some w ∧
    (lookupA st.cache year = none →
      ∃ raw, lookupA st.year_to_file year = some raw ∧
        mkDailyMeasureData raw st.geoid_filter = Except.ok w) := by
  cases hy : lookupA st.year_to_file year with
  | none =>
    rw [dirGetItem_keyError st year hy] at h
    exact Except.noConfusion h
  | some raw =>
    cases hc : lookupA st.cache year with
    | some w0 =>
      rw [dirGetItem_cached_eq st year raw w0 hy hc] at h
      obtain ⟨hw, hst⟩ := Prod.mk.inj (Except.ok.inj h)
      subst hw
      subst hst
      refine ⟨rfl, rfl, ⟨raw, rfl⟩, hc, fun hcon => ?_⟩
      exact Option.noConfusion hcon
    | none =>
      rw [dirGetItem_uncached_eq st year raw hy hc] at h
      cases hk : mkDailyMeasureData raw st.geoid_filter with
      | error e =>
        rw [hk] at h
        exact Except.noConfusion h
      | ok rows =>
        rw [hk] at h
        have h2 : (Except.ok (rows, { st with cache := st.cache ++ [(year, rows)] })
            : Except GetItemError (List CtxRow × DirState)) = Except.ok (w, st1) := h
        obtain ⟨hw, hst⟩ := Prod.mk.inj (Except.ok.inj h2)
        subst hw
        subst hst
        refine ⟨rfl, rfl, ⟨raw, rfl⟩, ?_, fun _ => ⟨raw, rfl, hk⟩⟩
        exact lookupA_append_self st.cache year rows hc

/-- C8: after a year has been materialized into the cache, mutating the
collection's GEOID filter does not change that cached year — a subsequent
get returns the wrapper that was loaded under the old filter, unchanged, and
does not modify the state — while a year not yet cached is materialized
under the NEW filter. -/
theorem C8_cache_filter_scoping (st : DirState) (year : String) (w : List CtxRow)
    (st1 : DirState) (h : dirGetItem st year = Except.ok (w, st1))
    (f2 : Option (List String)) :
    (dirGetItem (setGeoidFilter st1 f2) year
        = Except.ok (w, setGeoidFilter st1 f2)) ∧
    (lookupA st.cache year = none →
      ∃ raw, lookupA st.year_to_file year = some raw ∧
        mkDailyMeasureData raw st.geoid_filter = Except.ok w) ∧
    (∀ y2 raw2, lookupA st1.cache y2 = none →
      lookupA st1.year_to_file y2 = some raw2 →
      ((∀ rows, mkDailyMeasureData raw2 f2 = Except.ok rows →
          dirGetItem (setGeoidFilter st1 f2) y2
            = Except.ok (rows,
                ⟨f2, st1.year_to_file, st1.cache ++ [(y2, rows)]⟩)) ∧
        (∀ e, mkDailyMeasureData raw2 f2 = Except.error e →
          dirGetItem (setGeoidFilter st1 f2) y2
            = Except.error (GetItemError.dupError e)))) := by
  have hf := dirGetItem_ok_facts st year w st1 h
  obtain ⟨hytf, hfil, ⟨raw, hraw⟩, hcached, hold⟩ := hf
  have hraw1 : lookupA (setGeoidFilter st1 f2).year_to_file year = some raw := by
    show lookupA st1.year_to_file year = some raw
    rw [hytf]
    exact hraw
  refine ⟨?_, hold, ?_⟩
  · exact dirGetItem_cached_eq (setGeoidFilter st1 f2) year raw w hraw1 hcached
  · intro y2 raw2 hc2 hr2
    have e1 : lookupA (setGeoidFilter st1 f2).year_to_file y2 = some raw2 := hr2
    have e2 : lookupA (setGeoidFilter st1 f2).cache y2 = none := hc2
    have hstep := dirGetItem_uncached_eq (setGeoidFilter st1 f2) y2 raw2 e1 e2
    constructor
    · intro rows hmk
      rw [hstep]
      have e3 : mkDailyMeasureData raw2 (setGeoidFilter st1 f2).geoid_filter
          = Except.ok rows := hmk
      rw [e3]
      rfl
    · intro e hmk
      rw [hstep]
      have e3 : mkDailyMeasureData raw2 (setGeoidFilter st1 f2).geoid_filter
          = Except.error e := hmk
      rw [e3]

/-- Witness for C8: a concrete collection; year 2015 is materialized with no
filter, then the filter is set to the empty allow-set, and the cached 2015
wrapper is returned unchanged. -/
theorem C8_witness :
    dirGetItem
        (setGeoidFilter
          ⟨none, [("2015", [⟨100, "7", 3⟩]), ("2016", [⟨200, "8", 4⟩])],
            [("2015", [⟨100, "00000000007", 3⟩])]⟩ (some []))
        "2015"
      = Except.ok ([⟨100, "00000000007", 3⟩],
          setGeoidFilter
            ⟨none, [("2015", [⟨100, "7", 3⟩]), ("2016", [⟨200, "8", 4⟩])],
              [("2015", [⟨100, "00000000007", 3⟩])]⟩ (some [])) :=
  (C8_cache_filter_scoping
    ⟨none, [("2015", [⟨100, "7", 3⟩]), ("2016", [⟨200, "8", 4⟩])], []⟩
    "2015" [⟨100, "00000000007", 3⟩]
    ⟨none, [("2015", [⟨100, "7", 3⟩]), ("2016", [⟨200, "8", 4⟩])],
      [("2015", [⟨100, "00000000007", 3⟩])]⟩
    (by rfl) (some [])).1

/-! ## Per-lag processing: sequential batch loop vs parallel scheduler
(process.py 219-252, 404-441, 504-601)

The delegated join `HRSContextLinker.output_merged_columns` lives in the
out-of-scope collaborator `hrs.py` and is abstracted as a parameter
`join : Nat → Except String Nat` returning the column count of the produced
table (`out_df.shape[1]`) or raising; writing a temp file is abstracted as
producing its name. -/

/-- `f"[prefix]_lag_[n:04d].[file_format]"` (process.py 246, 592). -/
def lagFileName (pre : String) (n : Nat) (fmt : String) : String :=
  pre ++ "_lag_" ++ strZfill (toString n) 4 ++ "." ++ fmt

/-- The per-lag loop of `process_multiple_lags_batch` (process.py 219-252):
the join runs with NO try/except, so a raise propagates and aborts the
remaining lags; a result with at most one column (id only) is skipped;
otherwise the lag file name is appended to `temp_files`. -/
def process_multiple_lags_batch (join : Nat → Except String Nat)
    (pre fmt : String) (acc : List String) :
    List Nat → Except String (List String)
  | [] => Except.ok acc
  | n :: rest =>
    match join n with
    | Except.error e => Except.error e
    | Except.ok ncols =>
      if ncols ≤ 1 then process_multiple_lags_batch join pre fmt acc rest
      else
        process_multiple_lags_batch join pre fmt
          (acc ++ [lagFileName pre n fmt]) rest

/-- `_process_single_lag_internal` (process.py 504-601) on the precomputed
path: its body is wrapped in `try/except Exception`, so a raising join
yields `None` (logged, no output); a one-column result also yields `None`;
otherwise the written temp-file path is returned. -/
def processSingleLagInternal (join : Nat → Except String Nat)
    (pre fmt : String) (n : Nat) : Option String :=
  match join n with
  | Except.error _ => none
  | Except.ok ncols =>
    if ncols ≤ 1 then none
    else some (lagFileName pre n fmt)

/-- `process_multiple_lags_parallel` (process.py 404-441): one task per lag,
each running `processSingleLagInternal`; the collector appends every
non-None result and also try/excepts `fut.result()`, never cancelling
sibling tasks (completion order abstracted to submission order). -/
def process_multiple_lags_parallel (join : Nat → Except String Nat)
    (pre fmt : String) (lags : List Nat) : List String :=
  lags.filterMap (fun n => processSingleLagInternal join pre fmt n)

theorem batch_cons (join : Nat → Except String Nat) (pre fmt : String)
    (acc : List String) (n : Nat) (rest : List Nat) :
    process_multiple_lags_batch join pre fmt acc (n :: rest)
      = match join n with
        | Except.error e => Except.error e
        | Except.ok ncols =>
          if ncols ≤ 1 then process_multiple_lags_batch join pre fmt acc rest
          else
            process_multiple_lags_batch join pre fmt
              (acc ++ [lagFileName pre n fmt]) rest := rfl

theorem batch_cons_error (join : Nat → Except String Nat) (pre fmt : String)
    (acc : List String) (n : Nat) (rest : List Nat) (e : String)
    (hn : join n = Except.error e) :
    process_multiple_lags_batch join pre fmt acc (n :: rest)
      = Except.error e := by
  rw [batch_cons, hn]

theorem batch_cons_ok (join : Nat → Except String Nat) (pre fmt : String)
    (acc : List String) (n : Nat) (rest : List Nat) (k : Nat)
    (hk : join n = Except.ok k) :
    process_multiple_lags_batch join pre fmt acc (n :: rest)
      = if k ≤ 1 then process_multiple_lags_batch join pre fmt acc rest
        else
          process_multiple_lags_batch join pre fmt
            (acc ++ [lagFileName pre n fmt]) rest := by
  rw [batch_cons, hk]

theorem batch_error_of_failing_lag (join : Nat → Except String Nat)
    (pre fmt : String) (l1 l2 : List Nat) (n : Nat) (e : String)
    (hn : join n = Except.error e)
    (hok : ∀ m ∈ l1, ∃ k, join m = Except.ok k) :
    ∀ acc, process_multiple_lags_batch join pre fmt acc (l1 ++ n :: l2)
      = Except.error e := by
  induction l1 with
  | nil =>
    intro acc
    rw [List.nil_append]
    exact batch_cons_error join pre fmt acc n l2 e hn
  | cons m l1 ih =>
    intro acc
    obtain ⟨k, hk⟩ := hok m (List.mem_cons_self m l1)
    rw [List.cons_append, batch_cons_ok join pre fmt acc m (l1 ++ n :: l2) k hk]
    have ih2 := ih (fun m2 hm2 => hok m2 (List.mem_cons_of_mem m hm2))
    by_cases hle : k ≤ 1
    · rw [if_pos hle]
      exact ih2 acc
    · rw [if_neg hle]
      exact ih2 (acc ++ [lagFileName pre m fmt])

/-- C1 counterexample: with three lags [0, 1, 2] and a join that raises on
lag 1 only, the sequential batch path propagates the exception and aborts
(lag 2 is never processed and no file list is returned), while the parallel
path isolates the failure and still produces the lag-0 and lag-2 files. -/
theorem C1_counterexample :
    process_multiple_lags_batch
        (fun n => if n = 1 then Except.error "boom" else Except.ok 2)
        "heat" "parquet" [] [0, 1, 2]
      = Except.error "boom" ∧
    process_multiple_lags_parallel
        (fun n => if n = 1 then Except.error "boom" else Except.ok 2)
        "heat" "parquet" [0, 1, 2]
      = ["heat_lag_0000.parquet", "heat_lag_0002.parquet"] := by
  constructor
  · rfl
  · rfl

/-- C1, amended: per-lag failure isolation holds only in the parallel path:
`_process_single_lag_internal` catches a failing join and yields no output
for that lag, and the parallel collector processes every other lag
unaffected; the sequential batch path has no per-lag catch — the first
failing join makes `process_multiple_lags_batch` raise, aborting all
remaining lags. -/
theorem C1_failure_isolation (join : Nat → Except String Nat)
    (pre fmt : String) (l1 l2 : List Nat) (n : Nat) (e : String)
    (hn : join n = Except.error e)
    (hok : ∀ m ∈ l1, ∃ k, join m = Except.ok k) :
    process_multiple_lags_batch join pre fmt [] (l1 ++ n :: l2)
        = Except.error e ∧
    process_multiple_lags_parallel join pre fmt (l1 ++ n :: l2)
        = process_multiple_lags_parallel join pre fmt l1
          ++ process_multiple_lags_parallel join pre fmt l2 ∧
    processSingleLagInternal join pre fmt n = none := by
  have hsingle : processSingleLagInternal join pre fmt n = none := by
    unfold processSingleLagInternal
    rw [hn]
  refine ⟨batch_error_of_failing_lag join pre fmt l1 l2 n e hn hok [], ?_, hsingle⟩
  unfold process_multiple_lags_parallel
  rw [List.filterMap_append, List.filterMap_cons, hsingle]

/-- Witness for C1: the amended statement at the concrete failing scenario
lags = [0] ++ 1 :: [2]. -/
theorem C1_witness :
    process_multiple_lags_batch
        (fun n => if n = 1 then Except.error "boom" else Except.ok 2)
        "pm25" "parquet" [] ([0] ++ 1 :: [2])
      = Except.error "boom" ∧
    process_multiple_lags_parallel
        (fun n => if n = 1 then Except.error "boom" else Except.ok 2)
        "pm25" "parquet" ([0] ++ 1 :: [2])
      = process_multiple_lags_parallel
          (fun n => if n = 1 then Except.error "boom" else Except.ok 2)
          "pm25" "parquet" [0]
        ++ process_multiple_lags_parallel
          (fun n => if n = 1 then Except.error "boom" else Except.ok 2)
          "pm25" "parquet" [2] ∧
    processSingleLagInternal
        (fun n => if n = 1 then Except.error "boom" else Except.ok 2)
        "pm25" "parquet" 1 = none :=
  C1_failure_isolation
    (fun n => if n = 1 then Except.error "boom" else Except.ok 2)
    "pm25" "parquet" [0] [2] 1 "boom" (by rfl)
    (by
      intro m hm
      have hm0 : m = 0 := by simpa using hm
      subst hm0
      exact ⟨2, rfl⟩)

/-! ## `run_pipeline` final merge (process.py 736-779)

The survey table and each read-back lag file are tables of named integer
columns. The loop checks each file's subject-id column is row-for-row
identical to the survey's (`(final_df[id].values == lag_df[id].values).all()`
— raising the spec's `RowAlignmentError` otherwise), drops the id column
(`errors="ignore"`) and accumulates the remaining columns for one final
horizontal concat. -/

structure DFrame where
  cols : List (String × List Int)
deriving DecidableEq, Repr

def dfCol (df : DFrame) (name : String) : Option (List Int) :=
  (df.cols.find? (fun c => c.1 = name)).map Prod.snd

inductive MergeError where
  | keyError (col : String)
  | rowAlignment (fname : String)
deriving DecidableEq, Repr

/-- The per-file loop of the merge (process.py 748-762); a lag file is a
(name, table) pair. -/
def mergeLagLoop (idCol : String) (sid : List Int)
    (acc : List (String × List Int)) :
    List (String × DFrame) → Except MergeError (List (String × List Int))
  | [] => Except.ok acc
  | f :: rest =>
    match dfCol f.2 idCol with
    | none => Except.error (MergeError.keyError idCol)
    | some lid =>
      if lid = sid then
        mergeLagLoop idCol sid
          (acc ++ f.2.cols.filter (fun c => c.1 ≠ idCol)) rest
      else Except.error (MergeError.rowAlignment f.1)

/-- The merge step of `run_pipeline` (process.py 736-770): after the loop
succeeds, all accumulated lag columns are concatenated onto the survey
table side-by-side. -/
def run_pipeline_merge (survey : DFrame) (idCol : String)
    (files : List (String × DFrame)) : Except MergeError DFrame :=
  match dfCol survey idCol with
  | none => Except.error (MergeError.keyError idCol)
  | some sid =>
    (mergeLagLoop idCol sid [] files).map
      (fun lagCols => ⟨survey.cols ++ lagCols⟩)

theorem mergeLagLoop_cons_none (idCol : String) (sid : List Int)
    (acc : List (String × List Int)) (f : String × DFrame)
    (rest : List (String × DFrame)) (h : dfCol f.2 idCol = none) :
    mergeLagLoop idCol sid acc (f :: rest)
      = Except.error (MergeError.keyError idCol) := by
  rw [show mergeLagLoop idCol sid acc (f :: rest)
      = match dfCol f.2 idCol with
        | none => Except.error (MergeError.keyError idCol)
        | some lid =>
          if lid = sid then
            mergeLagLoop idCol sid
              (acc ++ f.2.cols.filter (fun c => c.1 ≠ idCol)) rest
          else Except.error (MergeError.rowAlignment f.1) from rfl, h]

theorem mergeLagLoop_cons_some (idCol : String) (sid : List Int)
    (acc : List (String × List Int)) (f : String × DFrame)
    (rest : List (String × DFrame)) (lid : List Int)
    (h : dfCol f.2 idCol = some lid) :
    mergeLagLoop idCol sid acc (f :: rest)
      = if lid = sid then
          mergeLagLoop idCol sid
            (acc ++ f.2.cols.filter (fun c => c.1 ≠ idCol)) rest
        else Except.error (MergeError.rowAlignment f.1) := by
  rw [show mergeLagLoop idCol sid acc (f :: rest)
      = match dfCol f.2 idCol with
        | none => Except.error (MergeError.keyError idCol)
        | some lid =>
          if lid = sid then
            mergeLagLoop idCol sid
              (acc ++ f.2.cols.filter (fun c => c.1 ≠ idCol)) rest
          else Except.error (MergeError.rowAlignment f.1) from rfl, h]

theorem mergeLagLoop_ok_iff (idCol : String) (sid : List Int)
    (files : List (String × DFrame)) :
    ∀ acc, (∃ out, mergeLagLoop idCol sid acc files = Except.ok out) ↔
      (∀ f ∈ files, dfCol f.2 idCol = some sid) := by
  induction files with
  | nil =>
    intro acc
    constructor
    · intro _ f hf
      exact absurd hf (List.not_mem_nil f)
    · intro _
      exact ⟨acc, rfl⟩
  | cons f rest ih =>
    intro acc
    cases hid : dfCol f.2 idCol with
    | none =>
      rw [mergeLagLoop_cons_none idCol sid acc f rest hid]
      constructor
      · rintro ⟨out, hcon⟩
        exact Except.noConfusion hcon
      · intro hall
        have := hall f (List.mem_cons_self f rest)
        rw [hid] at this
        exact Option.noConfusion this
    | some lid =>
      rw [mergeLagLoop_cons_some idCol sid acc f rest lid hid]
      by_cases heq : lid = sid
      · subst heq
        rw [if_pos rfl, ih]
        constructor
        · intro hall g hg
          rcases List.mem_cons.mp hg with rfl | hg2
          · exact hid
          · exact hall g hg2
        · intro hall g hg
          exact hall g (List.mem_cons_of_mem f hg)
      · rw [if_neg heq]
        constructor
        · rintro ⟨out, hcon⟩
          exact Except.noConfusion hcon
        · intro hall
          have := hall f (List.mem_cons_self f rest)
          rw [hid] at this
          exact absurd (Option.some.inj this) heq

theorem mergeLagLoop_ok_val (idCol : String) (sid : List Int)
    (files : List (String × DFrame)) :
    ∀ acc out, mergeLagLoop idCol sid acc files = Except.ok out →
      out = acc
        ++ (files.map (fun f => f.2.cols.filter (fun c => c.1 ≠ idCol))).flatten := by
  induction files with
  | nil =>
    intro acc out h
    have : acc = out := Except.ok.inj h
    simp [← this]
  | cons f rest ih =>
    intro acc out h
    cases hid : dfCol f.2 idCol with
    | none =>
      rw [mergeLagLoop_cons_none idCol sid acc f rest hid] at h
      exact Except.noConfusion h
    | some lid =>
      rw [mergeLagLoop_cons_some idCol sid acc f rest lid hid] at h
      by_cases heq : lid = sid
      · rw [if_pos heq] at h
        have := ih (acc ++ f.2.cols.filter (fun c => c.1 ≠ idCol)) out h
        rw [this]
        simp
      · rw [if_neg heq] at h
        exact Except.noConfusion h

theorem mergeLagLoop_rowError (idCol : String) (sid : List Int)
    (files : List (String × DFrame))
    (hall : ∀ f ∈ files, ∃ lid, dfCol f.2 idCol = some lid)
    (hbad : ∃ f ∈ files, ∃ lid, dfCol f.2 idCol = some lid ∧ lid ≠ sid) :
    ∀ acc, ∃ fname, mergeLagLoop idCol sid acc files
      = Except.error (MergeError.rowAlignment fname) := by
  induction files with
  | nil =>
    rcases hbad with ⟨f, hf, _⟩
    exact absurd hf (List.not_mem_nil f)
  | cons f rest ih =>
    intro acc
    obtain ⟨lid, hid⟩ := hall f (List.mem_cons_self f rest)
    rw [mergeLagLoop_cons_some idCol sid acc f rest lid hid]
    by_cases heq : lid = sid
    · subst heq
      rw [if_pos rfl]
      have hbad2 : ∃ g ∈ rest, ∃ lid2, dfCol g.2 idCol = some lid2 ∧ lid2 ≠ lid := by
        rcases hbad with ⟨g, hg, lid2, hg2, hne⟩
        rcases List.mem_cons.mp hg with rfl | hg3
        · rw [hid] at hg2
          exact absurd (Option.some.inj hg2).symm hne
        · exact ⟨g, hg3, lid2, hg2, hne⟩
      exact ih (fun g hg => hall g (List.mem_cons_of_mem f hg)) hbad2 _
    · rw [if_neg heq]
      exact ⟨f.1, rfl⟩

theorem run_pipeline_merge_eq (survey : DFrame) (idCol : String)
    (files : List (String × DFrame)) (sid : List Int)
    (hs : dfCol survey idCol = some sid) :
    run_pipeline_merge survey idCol files
      = (mergeLagLoop idCol sid [] files).map
          (fun lagCols => (⟨survey.cols ++ lagCols⟩ : DFrame)) := by
  unfold run_pipeline_merge
  rw [hs]

/-- C4: with the survey table's subject-id column equal to `sid` and every
lag file read back having a subject-id column, the merge produces an output
iff every file's subject-id column is row-for-row identical to the
survey's; the output is then the survey columns followed by every file's
non-id columns in file order; and if some file's subject-id column differs,
the pipeline fails with a RowAlignmentError. -/
theorem C4_row_alignment (survey : DFrame) (idCol : String)
    (files : List (String × DFrame)) (sid : List Int)
    (hs : dfCol survey idCol = some sid)
    (hall : ∀ f ∈ files, ∃ lid, dfCol f.2 idCol = some lid) :
    ((∃ out, run_pipeline_merge survey idCol files = Except.ok out) ↔
      (∀ f ∈ files, dfCol f.2 idCol = some sid)) ∧
    (∀ out, run_pipeline_merge survey idCol files = Except.ok out →
      out.cols = survey.cols
        ++ (files.map (fun f => f.2.cols.filter (fun c => c.1 ≠ idCol))).flatten) ∧
    ((∃ f ∈ files, ∃ lid, dfCol f.2 idCol = some lid ∧ lid ≠ sid) →
      ∃ fname, run_pipeline_merge survey idCol files
        = Except.error (MergeError.rowAlignment fname)) := by
  rw [run_pipeline_merge_eq survey idCol files sid hs]
  refine ⟨?_, ?_, ?_⟩
  · rw [← mergeLagLoop_ok_iff idCol sid files []]
    constructor
    · rintro ⟨out, hout⟩
      cases hloop : mergeLagLoop idCol sid [] files with
      | error e =>
        rw [hloop] at hout
        exact Except.noConfusion hout
      | ok lagCols => exact ⟨lagCols, rfl⟩
    · rintro ⟨lagCols, hloop⟩
      rw [hloop]
      exact ⟨⟨survey.cols ++ lagCols⟩, rfl⟩
  · intro out hout
    cases hloop : mergeLagLoop idCol sid [] files with
    | error e =>
      rw [hloop] at hout
      exact Except.noConfusion hout
    | ok lagCols =>
      rw [hloop] at hout
      have hval := mergeLagLoop_ok_val idCol sid files [] lagCols hloop
      have hout2 : (⟨survey.cols ++ lagCols⟩ : DFrame) = out :=
        Except.ok.inj hout
      rw [← hout2, hval]
      simp
  · intro hbad
    obtain ⟨fname, hloop⟩ := mergeLagLoop_rowError idCol sid files hall hbad []
    rw [hloop]
    exact ⟨fname, rfl⟩

/-- Witness for C4: a concrete survey table with one aligned lag file merges
to the expected wide table, and a misaligned variant raises the
row-alignment error. -/
theorem C4_witness :
    (∃ out, run_pipeline_merge ⟨[("hhidpn", [1, 2, 3]), ("g", [7, 8, 9])]⟩
        "hhidpn"
        [("heat_lag_0000.parquet",
          ⟨[("hhidpn", [1, 2, 3]), ("v0", [4, 5, 6])]⟩)] = Except.ok out) ∧
    (∃ fname, run_pipeline_merge ⟨[("hhidpn", [1, 2, 3]), ("g", [7, 8, 9])]⟩
        "hhidpn"
        [("heat_lag_0001.parquet",
          ⟨[("hhidpn", [3, 2, 1]), ("v1", [4, 5, 6])]⟩)]
      = Except.error (MergeError.rowAlignment fname)) := by
  constructor
  · exact (C4_row_alignment ⟨[("hhidpn", [1, 2, 3]), ("g", [7, 8, 9])]⟩ "hhidpn"
      [("heat_lag_0000.parquet", ⟨[("hhidpn", [1, 2, 3]), ("v0", [4, 5, 6])]⟩)]
      [1, 2, 3] (by rfl)
      (by
        intro f hf
        have hf0 : f = ("heat_lag_0000.parquet",
            ⟨[("hhidpn", [1, 2, 3]), ("v0", [4, 5, 6])]⟩) := by simpa using hf
        subst hf0
        exact ⟨[1, 2, 3], rfl⟩)).1.mpr
      (by
        intro f hf
        have hf0 : f = ("heat_lag_0000.parquet",
            ⟨[("hhidpn", [1, 2, 3]), ("v0", [4, 5, 6])]⟩) := by simpa using hf
        subst hf0
        rfl)
  · exact (C4_row_alignment ⟨[("hhidpn", [1, 2, 3]), ("g", [7, 8, 9])]⟩ "hhidpn"
      [("heat_lag_0001.parquet", ⟨[("hhidpn", [3, 2, 1]), ("v1", [4, 5, 6])]⟩)]
      [1, 2, 3] (by rfl)
      (by
        intro f hf
        have hf0 : f = ("heat_lag_0001.parquet",
            ⟨[("hhidpn", [3, 2, 1]), ("v1", [4, 5, 6])]⟩) := by simpa using hf
        subst hf0
        exact ⟨[3, 2, 1], rfl⟩)).2.2
      ⟨("heat_lag_0001.parquet", ⟨[("hhidpn", [3, 2, 1]), ("v1", [4, 5, 6])]⟩),
        by simp, [3, 2, 1], rfl, by decide⟩
